import Mathlib

/-!
Verification of the DYAD interposition and coordination engine
(`src/wrapper/wrapper.c`) against its natural-language specification.

The embedding below models the C code shallowly:
- machine integers are `Nat` (resp. `Int`) with explicit `% 2^32` / `% 2^64`
  where overflow matters;
- C strings and byte buffers are `List Nat` (byte values);
- the Flux KVS/RPC transport, the directory utilities and the dynamic
  loader are external collaborators and are modelled as boolean oracles
  carried in environment records;
- side effects of a hook body are modelled as an explicit trace of events
  (`Ev`), so ordering and occurrence claims become statements about lists.
-/

namespace Dyad

/-! ## 64-bit and 32-bit modular arithmetic -/

def M32 : Nat := 4294967296

def M64 : Nat := 18446744073709551616

def add64 (a b : Nat) : Nat := (a + b) % M64

def mul64 (a b : Nat) : Nat := (a * b) % M64

/-- Rotate a 64-bit value left by `r` (for `0 < r < 64`). -/
def rotl64 (x r : Nat) : Nat := (((x <<< r) % M64) ||| (x >>> (64 - r)))

/-! ## MurmurHash3 x64 128-bit

Modelled from the spec: the hash implementation (`murmur3.h` /
`MurmurHash3_x64_128`) is not among the given sources; the spec designates
"MurmurHash3 128-bit x64 variant" with an exact-bit-layout wire contract,
so this is the standard published MurmurHash3_x64_128 algorithm on a
little-endian machine, over `Nat` modulo `2^64`. -/

def mmC1 : Nat := 0x87c37b91114253d5

def mmC2 : Nat := 0x4cf5ab62db9ae747

def fmix64 (k : Nat) : Nat :=
  let a := k ^^^ (k >>> 33)
  let b := mul64 a 0xff51afd7ed558ccd
  let c := b ^^^ (b >>> 33)
  let d := mul64 c 0xc4ceb9fe1a85ec53
  d ^^^ (d >>> 33)

/-- Little-endian value of a byte list (first byte is least significant). -/
def leVal : List Nat → Nat
  | [] => 0
  | b :: bs => b + 256 * leVal bs

/-- The `k1` mixing step of MurmurHash3 x64 128 applied to `h1`. -/
def mixK1 (h1 k1 : Nat) : Nat := h1 ^^^ mul64 (rotl64 (mul64 k1 mmC1) 31) mmC2

/-- The `k2` mixing step of MurmurHash3 x64 128 applied to `h2`. -/
def mixK2 (h2 k2 : Nat) : Nat := h2 ^^^ mul64 (rotl64 (mul64 k2 mmC2) 33) mmC1

/-- Body loop: consume full 16-byte blocks, returning the new state and the
tail of fewer than 16 remaining bytes. -/
def mmBody (h1 h2 : Nat) :
    List Nat → Nat × Nat × List Nat
  | b0 :: b1 :: b2 :: b3 :: b4 :: b5 :: b6 :: b7 ::
    b8 :: b9 :: b10 :: b11 :: b12 :: b13 :: b14 :: b15 :: rest =>
    let k1 := leVal [b0, b1, b2, b3, b4, b5, b6, b7]
    let k2 := leVal [b8, b9, b10, b11, b12, b13, b14, b15]
    let h1a := mixK1 h1 k1
    let h1b := add64 (mul64 (add64 (rotl64 h1a 27) h2) 5) 0x52dce729
    let h2a := mixK2 h2 k2
    let h2b := add64 (mul64 (add64 (rotl64 h2a 31) h1b) 5) 0x38495ab5
    mmBody h1b h2b rest
  | rest => (h1, h2, rest)

/-- Tail handling: the `k2` block runs only when at least 9 tail bytes
remain, the `k1` block only when the tail is nonempty (the C switch falls
through from case 15 down to case 1). -/
def mmTail (h1 h2 : Nat) (t : List Nat) : Nat × Nat :=
  let k1 := leVal (t.take 8)
  let k2 := leVal (t.drop 8)
  let h2t := if 9 ≤ t.length then mixK2 h2 k2 else h2
  let h1t := if 1 ≤ t.length then mixK1 h1 k1 else h1
  (h1t, h2t)

/-- MurmurHash3_x64_128 of a byte string with a 32-bit seed; the result is
the pair of 64-bit halves `(h1, h2)` as laid out in the 16-byte output. -/
def murmur3_x64_128 (data : List Nat) (seed : Nat) : Nat × Nat :=
  let len := data.length
  let s := seed % M32
  let r := mmBody s s data
  let t := mmTail r.1 r.2.1 r.2.2
  let f1 := t.1 ^^^ (len % M64)
  let f2 := t.2 ^^^ (len % M64)
  let g1 := add64 f1 f2
  let g2 := add64 f2 g1
  let m1 := fmix64 g1
  let m2 := fmix64 g2
  let o1 := add64 m1 m2
  let o2 := add64 m2 o1
  (o1, o2)

/-- The xor-fold `hash[0] ^ hash[1] ^ hash[2] ^ hash[3]` of the four 32-bit
words of the 128-bit hash, as read from a `uint32_t hash[4]` view of the
output buffer on a little-endian machine (wrapper.c line 148). -/
def xorFold (str : List Nat) (seed : Nat) : Nat :=
  let h := murmur3_x64_128 str seed
  ((h.1 % M32) ^^^ (h.1 / M32)) ^^^ ((h.2 % M32) ^^^ (h.2 / M32))

/-- The bin of one level: xor-fold reduced modulo the fan-out `width`.
Note in C, `% width` with `width = 0` is undefined behaviour; here `n % 0 = n`
by `Nat.mod` convention. -/
def binOf (str : List Nat) (seed width : Nat) : Nat := xorFold str seed % width

/-! ## Lowercase hex rendering (`snprintf` with format `"%x."`) -/

/-- Byte of the lowercase hexadecimal digit of `n < 16`. -/
def hexDigit (n : Nat) : Nat := if n < 10 then 48 + n else 87 + n

def natToHexAux : Nat → Nat → List Nat
  | 0, _ => []
  | fuel + 1, n => if n = 0 then [] else natToHexAux fuel (n / 16) ++ [hexDigit (n % 16)]

/-- Bytes of the lowercase hex rendering of `n` (no leading zeros; `0`
renders as `"0"`), as produced by `printf` format `%x`. -/
def natToHex (n : Nat) : List Nat := if n = 0 then [48] else natToHexAux 32 n

/-! ## `gen_path_key` (wrapper.c lines 127-160) -/

/-- The seed table of `gen_path_key` (wrapper.c lines 130-132). -/
def seeds : List Nat :=
  [104677, 104681, 104683, 104693, 104701, 104707, 104711, 104717, 104723, 104729]

/-- One execution of `seed += seeds[d % 10]` (wrapper.c line 146); the
accumulator is a `uint32_t`. -/
def seedStep (seed d : Nat) : Nat := (seed + seeds.getD (d % 10) 0) % M32

/-- Value of the `seed` accumulator on entry to loop iteration `d`
(`seedBefore 0 = 57`, the initial value at wrapper.c line 134). -/
def seedBefore : Nat → Nat
  | 0 => 57
  | d + 1 => seedStep (seedBefore d) d

/-- The seed actually passed to the hash at level `d`: the accumulator
after the `seed += seeds[d % 10]` of iteration `d`. -/
def cumSeed (d : Nat) : Nat := seedStep (seedBefore d) d

/-- The formatted piece `"%x."` for the bin hashed with `seed`. -/
def binPiece (str : List Nat) (width seed : Nat) : List Nat :=
  natToHex (binOf str seed width) ++ [46]

/-- The key-building loop of `gen_path_key` (wrapper.c lines 144-154) with
`snprintf` buffer semantics: a truncating `snprintf` writes only the first
`avail - 1` bytes but still returns the untruncated length `n`, and the
loop exits with failure when `cx + n >= len`.  Arguments after the fixed
parameters: remaining levels, current level index `d`, `seed` accumulator,
write offset `cx`, bytes written so far.  Returns `(ok, cx, content)`. -/
def genLoop (str : List Nat) (len width : Nat) :
    Nat → Nat → Nat → Nat → List Nat → Bool × Nat × List Nat
  | 0, _, _, cx, content => (true, cx, content)
  | dRem + 1, d, seed, cx, content =>
    let seed' := seedStep seed d
    let piece := binPiece str width seed'
    let cx' := cx + piece.length
    let content' := content ++ piece.take (len - cx - 1)
    if len ≤ cx' then (false, cx', content')
    else genLoop str len width dRem (d + 1) seed' cx' content'

/-- `gen_path_key` for a non-null output buffer: the `int` result together
with the bytes left in the buffer (up to the terminating nul).  Faithful to
wrapper.c lines 127-160, including the final `snprintf (path_key+cx, len-cx,
"%s", str)` of the literal path suffix and its overflow check
`cx + n >= len`. -/
def genPathKeyBuf (str : List Nat) (len depth width : Nat) : Int × List Nat :=
  if len = 0 then (-1, [])
  else
    match genLoop str len width depth 0 57 0 [] with
    | (false, _, content) => (-1, content)
    | (true, cx, content) =>
      let content' := content ++ str.take (len - cx - 1)
      if len ≤ cx + str.length then (-1, content') else (0, content')

/-- `gen_path_key (str, path_key, len, depth, width)`; `outNull` models
`path_key == NULL`. -/
def gen_path_key (outNull : Bool) (str : List Nat) (len depth width : Nat) :
    Int × List Nat :=
  if outNull then (-1, []) else genPathKeyBuf str len depth width

/-- The flattened hex pieces of levels `d, d+1, ..., d+dRem-1` computed
with the accumulated seed schedule of the source. -/
def piecesFrom (str : List Nat) (width : Nat) : Nat → Nat → List Nat
  | _, 0 => []
  | d, dRem + 1 => binPiece str width (cumSeed d) ++ piecesFrom str width (d + 1) dRem

/-- As `piecesFrom`, with the seed accumulator threaded explicitly the way
`genLoop` threads it (arguments: level `d`, seed on entry to level `d`,
remaining levels). -/
def piecesFromSeed (str : List Nat) (width : Nat) : Nat → Nat → Nat → List Nat
  | _, _, 0 => []
  | d, s, dRem + 1 =>
    binPiece str width (seedStep s d) ++
      piecesFromSeed str width (d + 1) (seedStep s d) dRem

/-- Closed form of the key `gen_path_key` writes on success:
`hex(b_0). hex(b_1). ... hex(b_{depth-1}).` followed by the literal path,
where `b_i` uses the accumulated seed `cumSeed i`. -/
def dyadKey (str : List Nat) (depth width : Nat) : List Nat :=
  piecesFrom str width 0 depth ++ str

/-- Following claim C1's words (not the source): the seed of level `i`
taken independently as `57 + seeds[i mod 10]`. -/
def specSeedAt (i : Nat) : Nat := (57 + seeds.getD (i % 10) 0) % M32

/-- Following claim C1's words (not the source): hex pieces of levels
`i, ..., i+k-1` with the independent per-level seed `specSeedAt`. -/
def piecesSpec (str : List Nat) (width : Nat) : Nat → Nat → List Nat
  | _, 0 => []
  | i, k + 1 => binPiece str width (specSeedAt i) ++ piecesSpec str width (i + 1) k

/-- Following claim C1's words (not the source): the key with independent
per-level seeds. -/
def dyadKeySpec (str : List Nat) (depth width : Nat) : List Nat :=
  piecesSpec str width 0 depth ++ str

/-! ## Context and transport oracles -/

/-- Linux `PATH_MAX`; both `subscribe_via_flux` and `publish_via_flux`
declare `const size_t topic_len = PATH_MAX` and pass it as the capacity to
`gen_path_key` (wrapper.c lines 226, 361). -/
def PATH_MAX : Nat := 4096

/-- Per-thread context `dyad_sync_ctx_t` (the struct itself lives in
`dyad_ctx.h`, modelled from the spec's data-model table).  `hValid` models
`ctx->h != NULL`. -/
structure Ctx where
  initialized : Bool
  debug : Bool
  check : Bool
  shared_storage : Bool
  key_depth : Nat
  key_bins : Nat
  kvs_namespace : Option (List Nat)
  hValid : Bool
  rank : Nat
  reenter : Bool
  deriving DecidableEq, Repr

/-- Outcomes of the external Flux KVS/RPC calls and of the directory/file
utilities used inside one subscribe or publish; the transport is an
external collaborator, so its results are oracles. -/
structure FluxEnv where
  lookupOk : Bool
  unpackOk : Bool
  ownerRank : Nat
  rpcPackOk : Bool
  rpcGetOk : Bool
  mkdirOk : Bool
  fopenOk : Bool
  fwriteOk : Bool
  fcloseOk : Bool
  txnCreateOk : Bool
  txnPackOk : Bool
  commitOk : Bool
  deriving DecidableEq, Repr

/-- Observable actions of a hook body, in program order. -/
inductive Ev where
  | subscribeCall
  | publishCall
  | kvsLookup (topic : List Nat)
  | gotOwner (r : Nat)
  | fetch (r : Nat)
  | txnPack (topic : List Nat)
  | commit
  | realOpen
  | realFopen
  | realClose
  | realFclose
  | fsync
  | fflush
  deriving DecidableEq, Repr

/-! ## Subscriber and publisher (wrapper.c lines 214-330 and 355-404) -/

/-- `subscribe_via_flux (consumer_path, user_path)`: returns the `int`
result, the context (unchanged: the function never writes `ctx`), and the
trace of its actions.  The `gen_path_key` return value is discarded
(wrapper.c line 232) and the buffer contents are used as the KVS topic
regardless.  `Ev.kvsLookup` is the wait-create `flux_kvs_lookup` issue,
`Ev.gotOwner` the successful decode of the owner rank, `Ev.fetch` the
`flux_rpc_pack ("dyad.fetch", owner_rank, ...)` issue. -/
def subscribe_via_flux (c : Ctx) (e : FluxEnv) (userPath : List Nat) :
    Int × Ctx × List Ev :=
  let topic := (genPathKeyBuf userPath PATH_MAX c.key_depth c.key_bins).2
  if c.hValid = false then (-1, c, [Ev.subscribeCall])
  else
    let evs := [Ev.subscribeCall, Ev.kvsLookup topic]
    if e.lookupOk = false then (-1, c, evs)
    else if e.unpackOk = false then (-1, c, evs)
    else
      let evs := evs ++ [Ev.gotOwner e.ownerRank]
      if c.shared_storage = true ∨ e.ownerRank = c.rank then (0, c, evs)
      else
        let rc : Int :=
          if e.rpcPackOk = false then -1
          else if e.rpcGetOk = false then -1
          else if e.mkdirOk = false then -1
          else if e.fopenOk = false then -1
          else if e.fwriteOk = false then -1
          else if e.fcloseOk = true then 0 else -1
        (rc, c, evs ++ [Ev.fetch e.ownerRank])

/-- `publish_via_flux (producer_path, user_path)`: as for the subscriber,
the `gen_path_key` result is discarded (wrapper.c line 365) and the buffer
contents become the committed topic.  `Ev.publishCall` marks entry into the
function, `Ev.txnPack` the `flux_kvs_txn_pack (txn, 0, topic, "i", rank)`
call, `Ev.commit` the blocking `flux_kvs_commit` + wait. -/
def publish_via_flux (c : Ctx) (e : FluxEnv) (userPath : List Nat) :
    Int × Ctx × List Ev :=
  let topic := (genPathKeyBuf userPath PATH_MAX c.key_depth c.key_bins).2
  if c.hValid = false then (-1, c, [Ev.publishCall])
  else if e.txnCreateOk = false then (-1, c, [Ev.publishCall])
  else
    let evs := [Ev.publishCall, Ev.txnPack topic]
    if e.txnPackOk = false then (-1, c, evs)
    else (if e.commitOk = true then 0 else -1, c, evs ++ [Ev.commit])

/-- `dyad_open_sync` (wrapper.c lines 406-415): clear `ctx->reenter`, run
the subscriber, restore `ctx->reenter = true`, return the subscriber's
result. -/
def dyad_open_sync (c : Ctx) (e : FluxEnv) (userPath : List Nat) :
    Int × Ctx × List Ev :=
  let c1 : Ctx := { c with reenter := false }
  let r := subscribe_via_flux c1 e userPath
  (r.1, { r.2.1 with reenter := true }, r.2.2)

/-- `dyad_close_sync` (wrapper.c lines 417-426): clear `ctx->reenter`, run
the publisher, restore `ctx->reenter = true`, return the publisher's
result. -/
def dyad_close_sync (c : Ctx) (e : FluxEnv) (userPath : List Nat) :
    Int × Ctx × List Ev :=
  let c1 : Ctx := { c with reenter := false }
  let r := publish_via_flux c1 e userPath
  (r.1, { r.2.1 with reenter := true }, r.2.2)

/-- `open_sync` (wrapper.c lines 428-450).  `consPrefixSet` models
`getenv (DYAD_PATH_CONS_ENV) != NULL`; `pathMatches` models
`cmp_canonical_path_prefix` (a directory utility outside the given
sources, so an oracle); `upath` is the user path it extracts.  The
`setenv (DYAD_CHECK_ENV)` in check mode is a side effect no claim
mentions and is not modelled. -/
def open_sync (c : Ctx) (consPrefixSet pathMatches : Bool) (e : FluxEnv)
    (upath : List Nat) : Int × Ctx × List Ev :=
  if consPrefixSet = false then (0, c, [])
  else if pathMatches = true then dyad_open_sync c e upath
  else (0, c, [])

/-- `close_sync` (wrapper.c lines 452-475), analogous to `open_sync` with
the producer-managed prefix. -/
def close_sync (c : Ctx) (prodPrefixSet pathMatches : Bool) (e : FluxEnv)
    (upath : List Nat) : Int × Ctx × List Ev :=
  if prodPrefixSet = false then (0, c, [])
  else if pathMatches = true then dyad_close_sync c e upath
  else (0, c, [])

/-! ## Interposed entry points (wrapper.c lines 593-819) -/

/-- The fcntl `O_*` bits used by the `open` hook (Linux values). -/
def O_RDONLY : Nat := 0

def O_WRONLY : Nat := 1

def O_ACCMODE : Nat := 3

def O_CREAT : Nat := 64

/-- The shared applicability part of each hook's gate: a context exists,
its transport handle is non-null and `reenter` is set. -/
def ctxOk : Option Ctx → Bool
  | none => false
  | some c => c.hValid && c.reenter

/-- Environment of one `open` hook invocation: `dlsymOk` is success of the
`RTLD_NEXT` resolution, `isDir` is `is_path_dir (path)`, `realRet` the
value the real `open` returns for these arguments. -/
structure OpenEnv where
  dlsymOk : Bool
  isDir : Bool
  ctx : Option Ctx
  flux : FluxEnv
  consPrefixSet : Bool
  pathMatches : Bool
  upath : List Nat
  realRet : Int
  deriving DecidableEq, Repr

/-- Environment of one `fopen` hook invocation; `pathNull` models
`path == NULL`, `modeStr` the bytes of the mode string, `realRet` the
`FILE *` returned by the real `fopen` (an opaque word, `0` for `NULL`). -/
structure FopenEnv where
  dlsymOk : Bool
  isDir : Bool
  ctx : Option Ctx
  flux : FluxEnv
  consPrefixSet : Bool
  pathMatches : Bool
  upath : List Nat
  modeStr : List Nat
  pathNull : Bool
  realRet : Int
  deriving DecidableEq, Repr

/-- Environment of one `close` / `fclose` hook invocation: `fdValid` is
`fd >= 0` (resp. `fp != NULL`), `getPathOk` is success of `get_path`,
`wronly` the result of `is_wronly` (`-1`, `0`, or `1`). -/
structure CloseEnv where
  dlsymOk : Bool
  fdValid : Bool
  isDir : Bool
  ctx : Option Ctx
  flux : FluxEnv
  getPathOk : Bool
  wronly : Int
  prodPrefixSet : Bool
  pathMatches : Bool
  upath : List Nat
  realRet : Int
  deriving DecidableEq, Repr

/-- The interposed `open` (wrapper.c lines 593-634).  `oflag` and
`modeArg` are the call's flag word and (when `O_CREAT` is set) variadic
mode argument; when `O_CREAT` is absent the local `mode` stays `0`.  On
`dlsym` failure it returns `-1` without calling anything; on every other
path the real `open` runs exactly once, last, and its value is returned. -/
def openHook (e : OpenEnv) (oflag modeArg : Nat) : Int × List Ev :=
  if e.dlsymOk = false then (-1, [])
  else
    let mode : Nat := if oflag &&& O_CREAT ≠ 0 then modeArg else 0
    if mode ≠ O_RDONLY ∨ e.isDir = true then (e.realRet, [Ev.realOpen])
    else
      match e.ctx with
      | none => (e.realRet, [Ev.realOpen])
      | some c =>
        if c.hValid && c.reenter then
          (e.realRet,
            (open_sync c e.consPrefixSet e.pathMatches e.flux e.upath).2.2 ++
              [Ev.realOpen])
        else (e.realRet, [Ev.realOpen])

/-- The interposed `fopen` (wrapper.c lines 636-668); returns `0`
(`NULL`) on `dlsym` failure. -/
def fopenHook (e : FopenEnv) : Int × List Ev :=
  if e.dlsymOk = false then (0, [])
  else if e.modeStr ≠ [114] ∨ e.isDir = true then (e.realRet, [Ev.realFopen])
  else
    match e.ctx with
    | none => (e.realRet, [Ev.realFopen])
    | some c =>
      if c.hValid && c.reenter && !e.pathNull then
        (e.realRet,
          (open_sync c e.consPrefixSet e.pathMatches e.flux e.upath).2.2 ++
            [Ev.realFopen])
      else (e.realRet, [Ev.realFopen])

/-- The interposed `close` (wrapper.c lines 670-742): after the guards,
`fsync (fd)` runs unconditionally at the `real_call` label; when the call
is in scope and the descriptor was write-only, the real `close` runs first
and `close_sync` after it, its failure only logged; the value returned is
always the real `close`'s. -/
def closeHook (e : CloseEnv) : Int × List Ev :=
  if e.dlsymOk = false then (-1, [])
  else
    match e.ctx with
    | none => (e.realRet, [Ev.fsync, Ev.realClose])
    | some c =>
      let toSync : Bool := e.fdValid && c.hValid && c.reenter && !e.isDir && e.getPathOk
      if toSync = true ∧ e.wronly = 1 then
        (e.realRet, [Ev.fsync, Ev.realClose] ++
          (close_sync c e.prodPrefixSet e.pathMatches e.flux e.upath).2.2)
      else (e.realRet, [Ev.fsync, Ev.realClose])

/-- The interposed `fclose` (wrapper.c lines 744-819): as `close`, with
`fflush (fp)` before the `fsync`, and `EOF` (`-1`) on `dlsym` failure. -/
def fcloseHook (e : CloseEnv) : Int × List Ev :=
  if e.dlsymOk = false then (-1, [])
  else
    match e.ctx with
    | none => (e.realRet, [Ev.fflush, Ev.fsync, Ev.realFclose])
    | some c =>
      let toSync : Bool := e.fdValid && c.hValid && c.reenter && !e.isDir && e.getPathOk
      if toSync = true ∧ e.wronly = 1 then
        (e.realRet, [Ev.fflush, Ev.fsync, Ev.realFclose] ++
          (close_sync c e.prodPrefixSet e.pathMatches e.flux e.upath).2.2)
      else (e.realRet, [Ev.fflush, Ev.fsync, Ev.realFclose])

/-! ## Lifecycle (wrapper.c lines 484-576) -/

/-- C `atoi` on a byte string: optional whitespace, optional sign, then
leading decimal digits (overflow ignored). -/
def atoiDigits : List Nat → Nat → Nat
  | [], acc => acc
  | c :: cs, acc => if 48 ≤ c ∧ c ≤ 57 then atoiDigits cs (acc * 10 + (c - 48)) else acc

def atoi (s : List Nat) : Int :=
  let s1 := s.dropWhile (fun c => c = 32 ∨ (9 ≤ c ∧ c ≤ 13))
  match s1 with
  | 45 :: rest => -(atoiDigits rest 0 : Int)
  | 43 :: rest => (atoiDigits rest 0 : Int)
  | _ => (atoiDigits s1 0 : Int)

/-- Conversion of a C `int` to `uint32_t` (reduction modulo `2^32`). -/
def u32ofInt (i : Int) : Nat := (i % (M32 : Int)).toNat

/-- Environment seen by `dyad_sync_init` on the fresh-context path: which
variables are set (and to what bytes), and the transport outcomes
(`fluxOpenOk` models `flux_open` returning non-null, `getRankOk` success
of `flux_get_rank`). -/
structure InitEnv where
  debugEnv : Bool
  checkEnv : Bool
  sharedEnv : Bool
  keyDepthEnv : Option (List Nat)
  keyBinsEnv : Option (List Nat)
  kvsNsEnv : Option (List Nat)
  fluxOpenOk : Bool
  getRankOk : Bool
  fluxRank : Nat
  deriving DecidableEq, Repr

/-- `dyad_sync_init` (wrapper.c lines 484-576) on the fresh-context path:
every configuration field is filled from the environment with no
validation (`key_depth` / `key_bins` are `atoi` of the variable when set,
else `3` / `1024`), the handle comes from `flux_open` (failure only
logged), the rank from `flux_get_rank` (failure only logged, leaving the
default `0`), and `initialized` is set to `true` unconditionally at line
547. -/
def dyad_sync_init (e : InitEnv) : Ctx :=
  { initialized := true
    debug := e.debugEnv
    check := e.checkEnv
    shared_storage := e.sharedEnv
    key_depth := match e.keyDepthEnv with
      | some s => u32ofInt (atoi s)
      | none => 3
    key_bins := match e.keyBinsEnv with
      | some s => u32ofInt (atoi s)
      | none => 1024
    kvs_namespace := e.kvsNsEnv
    hValid := e.fluxOpenOk
    rank := if e.getRankOk = true then e.fluxRank else 0
    reenter := true }

/-! ## Trace-ordering helper -/

/-- `precedes a b l`: every occurrence of `b` in `l` has an occurrence of
`a` strictly before it. -/
def precedes (a b : Ev) (l : List Ev) : Prop :=
  ∀ l₁ l₂, l = l₁ ++ b :: l₂ → a ∈ l₁

/-- Some `snprintf` of `gen_path_key` would overflow the buffer: either
the `"%x."` of some level `j < depth` pushes the write offset to `len` or
beyond (the check `cx >= len` at wrapper.c line 151), or the final path
suffix does (`cx + n >= len` at line 156). -/
def overflowAt (str : List Nat) (len depth width : Nat) : Prop :=
  (∃ j, j < depth ∧ len ≤ (piecesFrom str width 0 (j + 1)).length) ∨
  len ≤ (piecesFrom str width 0 depth).length + str.length

/-- A transport environment in which every external call succeeds. -/
def fluxAllOk : FluxEnv :=
  { lookupOk := true, unpackOk := true, ownerRank := 0, rpcPackOk := true,
    rpcGetOk := true, mkdirOk := true, fopenOk := true, fwriteOk := true,
    fcloseOk := true, txnCreateOk := true, txnPackOk := true, commitOk := true }

/-- A fully initialized context with an open transport handle. -/
def liveCtx : Ctx :=
  { initialized := true, debug := false, check := false, shared_storage := false,
    key_depth := 1, key_bins := 16, kvs_namespace := none, hValid := true,
    rank := 0, reenter := true }

/-- An `open` hook environment for a consumer-managed regular file with a
working context: symbol resolution succeeds, the path is managed and not a
directory. -/
def liveOpenEnv : OpenEnv :=
  { dlsymOk := true, isDir := false, ctx := some liveCtx, flux := fluxAllOk,
    consPrefixSet := true, pathMatches := true, upath := [97], realRet := 3 }

/-- An `fopen` hook environment mirroring `liveOpenEnv`, with mode
string `"r"`. -/
def liveFopenEnv : FopenEnv :=
  { dlsymOk := true, isDir := false, ctx := some liveCtx, flux := fluxAllOk,
    consPrefixSet := true, pathMatches := true, upath := [97], modeStr := [114],
    pathNull := false, realRet := 5 }

/-- A `close` hook environment in which the publish path is taken: valid
write-only descriptor of a producer-managed regular file, working
context. -/
def liveCloseEnv : CloseEnv :=
  { dlsymOk := true, fdValid := true, isDir := false, ctx := some liveCtx,
    flux := fluxAllOk, getPathOk := true, wronly := 1, prodPrefixSet := true,
    pathMatches := true, upath := [97], realRet := 0 }

/-- An init-time environment with `DYAD_KEY_BINS=0`, `DYAD_KEY_DEPTH`
unset, and a healthy transport. -/
def binsZeroInitEnv : InitEnv :=
  { debugEnv := false, checkEnv := false, sharedEnv := false,
    keyDepthEnv := none, keyBinsEnv := some [48], kvsNsEnv := none,
    fluxOpenOk := true, getRankOk := true, fluxRank := 0 }

/-- An init-time environment in which `flux_open` fails. -/
def noFluxInitEnv : InitEnv :=
  { debugEnv := false, checkEnv := false, sharedEnv := false,
    keyDepthEnv := none, keyBinsEnv := none, kvsNsEnv := none,
    fluxOpenOk := false, getRankOk := false, fluxRank := 0 }

/-- A context whose `key_depth` is `0` (obtainable via `DYAD_KEY_DEPTH=0`),
under which `gen_path_key` overflows its `PATH_MAX` topic buffer for any
user path longer than `PATH_MAX - 1` bytes. -/
def depthZeroCtx : Ctx :=
  { initialized := true, debug := false, check := false, shared_storage := false,
    key_depth := 0, key_bins := 1024, kvs_namespace := none, hValid := true,
    rank := 0, reenter := true }

/-! ## Sanity anchors for the hash model

Golden values computed with the reference MurmurHash3_x64_128
implementation (little-endian): these pin the embedding to the published
algorithm, as the spec's wire contract requires. -/

example : xorFold [] 57 = 4142747760 := by decide

example : xorFold [97] 104734 = 3776438236 := by decide

example :
    xorFold [84, 104, 101, 32, 113, 117, 105, 99, 107, 32, 98, 114, 111, 119, 110,
      32, 102, 111, 120, 32, 106, 117, 109, 112, 115, 32, 111, 118, 101, 114, 32,
      116, 104, 101, 32, 108, 97, 122, 121, 32, 100, 111, 103] 209415 = 432603380 := by
  decide

example :
    genPathKeyBuf [97] 128 3 1024 =
      (0, [51, 100, 99, 46, 50, 100, 99, 46, 55, 51, 46, 97]) := by decide

example : genPathKeyBuf [97] 4 2 1024 = (-1, [51, 100, 99]) := by decide

/-! ## Trace-ordering helper lemmas -/

theorem precedes_of_not_mem {a b : Ev} {l : List Ev} (h : b ∉ l) :
    precedes a b l := by
  intro l₁ l₂ he
  exact absurd (he ▸ List.mem_append_right l₁ (List.mem_cons_self b l₂)) h

theorem precedes_append {a b : Ev} {l₁ l₂ : List Ev} (ha : a ∈ l₁) (hb : b ∉ l₁) :
    precedes a b (l₁ ++ l₂) := by
  intro p s hp
  rcases List.append_eq_append_iff.mp hp with ⟨q, h1, _⟩ | ⟨q, h1, h2⟩
  · exact h1 ▸ List.mem_append_left q ha
  · cases q with
    | nil => rw [List.append_nil] at h1; exact h1 ▸ ha
    | cons x t =>
      injection h2 with hx _
      exact absurd (h1 ▸ List.mem_append_right p (hx ▸ List.mem_cons_self x t)) hb

/-! ## Claim C6 -/

/-- C6: for every call to `dyad_open_sync` or `dyad_close_sync`, the
context passed to the nested `subscribe_via_flux` / `publish_via_flux` has
`reenter = false`, those functions return the context unchanged (so the
flag stays `false` for the whole nested call), and after the coordination
returns — whatever its result — the context has `reenter = true` again. -/
theorem c6_reenter_cleared_and_restored (c : Ctx) (e : FluxEnv) (up : List Nat) :
    ({ c with reenter := false } : Ctx).reenter = false ∧
    (subscribe_via_flux { c with reenter := false } e up).2.1 =
      { c with reenter := false } ∧
    (publish_via_flux { c with reenter := false } e up).2.1 =
      { c with reenter := false } ∧
    (dyad_open_sync c e up).2.1.reenter = true ∧
    (dyad_close_sync c e up).2.1.reenter = true := by
  refine ⟨rfl, ?_, ?_, ?_, ?_⟩
  · unfold subscribe_via_flux
    repeat' first | rfl | split
  · unfold publish_via_flux
    repeat' first | rfl | split
  · simp only [dyad_open_sync]
  · simp only [dyad_close_sync]

/-! ## Claim C8 -/

/-- C8 counterexample: with every environment variable unset and
`flux_open` failing, `dyad_sync_init` still sets `initialized = true`
while the transport handle is null — the claimed invariant
`initialized → handle valid` does not hold for this outcome of opening
the transport. -/
theorem c8_initialized_despite_failed_open :
    (dyad_sync_init noFluxInitEnv).initialized = true ∧
    (dyad_sync_init noFluxInitEnv).hValid = false := by
  exact ⟨rfl, rfl⟩

/-- C8 (amended): `dyad_sync_init` sets `initialized = true`
unconditionally; the transport handle is valid exactly when `flux_open`
succeeded, and when it is null the hooks' shared applicability gate
(`ctxOk`) rejects the context, so the degraded mode is enforced by the
null handle, not by `initialized`. -/
theorem c8_init_unconditional_and_gated (e : InitEnv) :
    (dyad_sync_init e).initialized = true ∧
    (dyad_sync_init e).hValid = e.fluxOpenOk ∧
    ((dyad_sync_init e).hValid = false → ctxOk (some (dyad_sync_init e)) = false) := by
  refine ⟨rfl, rfl, fun h => ?_⟩
  simp [ctxOk, h]

/-- Witness for C8 (amended) at the concrete failed-transport
environment. -/
theorem c8_init_unconditional_and_gated_witness :
    (dyad_sync_init noFluxInitEnv).initialized = true ∧
    ctxOk (some (dyad_sync_init noFluxInitEnv)) = false := by
  have h := c8_init_unconditional_and_gated noFluxInitEnv
  exact ⟨h.1, h.2.2 rfl⟩

/-! ## Claim C9 -/

/-- C9 counterexample: with `DYAD_KEY_BINS=0` (bytes `[48]`),
`dyad_sync_init` stores `key_bins = 0`, violating the claimed invariant
`key_bins ≥ 1`. -/
theorem c9_key_bins_zero :
    (dyad_sync_init binsZeroInitEnv).key_bins = 0 ∧
    ¬ 1 ≤ (dyad_sync_init binsZeroInitEnv).key_bins := by decide

/-- C9 (amended): when `DYAD_KEY_DEPTH` / `DYAD_KEY_BINS` are unset the
defaults `3` / `1024` are used, and these satisfy the `≥ 1` invariant;
when set, the fields are `atoi` of the value cast to `uint32_t` with no
validation, so values such as `"0"` or non-numeric strings produce `0`
(and `gen_path_key` then reduces modulo `0`, undefined in C). -/
theorem c9_key_params_unvalidated (e : InitEnv) :
    (e.keyDepthEnv = none → (dyad_sync_init e).key_depth = 3) ∧
    (e.keyBinsEnv = none → (dyad_sync_init e).key_bins = 1024) ∧
    (∀ s, e.keyDepthEnv = some s → (dyad_sync_init e).key_depth = u32ofInt (atoi s)) ∧
    (∀ s, e.keyBinsEnv = some s → (dyad_sync_init e).key_bins = u32ofInt (atoi s)) ∧
    (e.keyDepthEnv = none → e.keyBinsEnv = none →
      1 ≤ (dyad_sync_init e).key_depth ∧ 1 ≤ (dyad_sync_init e).key_bins) := by
  refine ⟨fun h => ?_, fun h => ?_, fun s h => ?_, fun s h => ?_, fun h1 h2 => ?_⟩ <;>
    simp [dyad_sync_init, *]

/-- Witness for C9 (amended): the default path at a concrete unset
environment, and the `atoi` path at `DYAD_KEY_BINS=0`. -/
theorem c9_key_params_unvalidated_witness :
    (dyad_sync_init noFluxInitEnv).key_depth = 3 ∧
    (dyad_sync_init noFluxInitEnv).key_bins = 1024 ∧
    (1 ≤ (dyad_sync_init noFluxInitEnv).key_depth ∧
      1 ≤ (dyad_sync_init noFluxInitEnv).key_bins) ∧
    (dyad_sync_init binsZeroInitEnv).key_bins = u32ofInt (atoi [48]) := by
  have h1 := c9_key_params_unvalidated noFluxInitEnv
  have h2 := c9_key_params_unvalidated binsZeroInitEnv
  exact ⟨h1.1 rfl, h1.2.1 rfl, h1.2.2.2.2 rfl rfl, h2.2.2.2.1 [48] rfl⟩

/-! ## Trace-shape lemmas for the hook traces -/

/-- The four possible traces of one subscribe, by branch. -/
theorem subscribe_trace_cases (c : Ctx) (e : FluxEnv) (up : List Nat) :
    (subscribe_via_flux c e up).2.2 = [Ev.subscribeCall] ∨
    ∃ t, ((subscribe_via_flux c e up).2.2 = [Ev.subscribeCall, Ev.kvsLookup t] ∨
      (subscribe_via_flux c e up).2.2 =
        [Ev.subscribeCall, Ev.kvsLookup t, Ev.gotOwner e.ownerRank] ∨
      (subscribe_via_flux c e up).2.2 =
        [Ev.subscribeCall, Ev.kvsLookup t, Ev.gotOwner e.ownerRank,
          Ev.fetch e.ownerRank]) := by
  by_cases hH : c.hValid = false
  · left; simp [subscribe_via_flux, hH]
  refine Or.inr ⟨(genPathKeyBuf up PATH_MAX c.key_depth c.key_bins).2, ?_⟩
  by_cases hL : e.lookupOk = false
  · left; simp [subscribe_via_flux, hH, hL]
  by_cases hU : e.unpackOk = false
  · left; simp [subscribe_via_flux, hH, hL, hU]
  by_cases hS : c.shared_storage = true ∨ e.ownerRank = c.rank
  · right; left; simp [subscribe_via_flux, hH, hL, hU, hS]
  · right; right; simp [subscribe_via_flux, hH, hL, hU, hS]

/-- The three possible traces of one publish, by branch. -/
theorem publish_trace_cases (c : Ctx) (e : FluxEnv) (up : List Nat) :
    (publish_via_flux c e up).2.2 = [Ev.publishCall] ∨
    ∃ t, ((publish_via_flux c e up).2.2 = [Ev.publishCall, Ev.txnPack t] ∨
      (publish_via_flux c e up).2.2 = [Ev.publishCall, Ev.txnPack t, Ev.commit]) := by
  by_cases hH : c.hValid = false
  · left; simp [publish_via_flux, hH]
  by_cases hT : e.txnCreateOk = false
  · left; simp [publish_via_flux, hH, hT]
  refine Or.inr ⟨(genPathKeyBuf up PATH_MAX c.key_depth c.key_bins).2, ?_⟩
  by_cases hP : e.txnPackOk = false
  · left; simp [publish_via_flux, hH, hT, hP]
  · right; simp [publish_via_flux, hH, hT, hP]

/-- The trace of `open_sync` is empty or a subscribe trace. -/
theorem open_sync_trace (c : Ctx) (a b : Bool) (e : FluxEnv) (up : List Nat) :
    (open_sync c a b e up).2.2 = [] ∨
    (open_sync c a b e up).2.2 =
      (subscribe_via_flux { c with reenter := false } e up).2.2 := by
  unfold open_sync
  by_cases h1 : a = false
  · left; rw [if_pos h1]
  · rw [if_neg h1]
    by_cases h2 : b = true
    · right; rw [if_pos h2]; rfl
    · left; rw [if_neg h2]

/-- The trace of `close_sync` is empty or a publish trace. -/
theorem close_sync_trace (c : Ctx) (a b : Bool) (e : FluxEnv) (up : List Nat) :
    (close_sync c a b e up).2.2 = [] ∨
    (close_sync c a b e up).2.2 =
      (publish_via_flux { c with reenter := false } e up).2.2 := by
  unfold close_sync
  by_cases h1 : a = false
  · left; rw [if_pos h1]
  · rw [if_neg h1]
    by_cases h2 : b = true
    · right; rw [if_pos h2]; rfl
    · left; rw [if_neg h2]

theorem realOpen_not_mem_open_sync (c : Ctx) (a b : Bool) (e : FluxEnv)
    (up : List Nat) : Ev.realOpen ∉ (open_sync c a b e up).2.2 := by
  rcases open_sync_trace c a b e up with h | h <;> rw [h]
  · simp
  · rcases subscribe_trace_cases { c with reenter := false } e up with
      h2 | ⟨t, h2 | h2 | h2⟩ <;> rw [h2] <;> simp

theorem realFopen_not_mem_open_sync (c : Ctx) (a b : Bool) (e : FluxEnv)
    (up : List Nat) : Ev.realFopen ∉ (open_sync c a b e up).2.2 := by
  rcases open_sync_trace c a b e up with h | h <;> rw [h]
  · simp
  · rcases subscribe_trace_cases { c with reenter := false } e up with
      h2 | ⟨t, h2 | h2 | h2⟩ <;> rw [h2] <;> simp

theorem realClose_not_mem_close_sync (c : Ctx) (a b : Bool) (e : FluxEnv)
    (up : List Nat) : Ev.realClose ∉ (close_sync c a b e up).2.2 := by
  rcases close_sync_trace c a b e up with h | h <;> rw [h]
  · simp
  · rcases publish_trace_cases { c with reenter := false } e up with
      h2 | ⟨t, h2 | h2⟩ <;> rw [h2] <;> simp

theorem realFclose_not_mem_close_sync (c : Ctx) (a b : Bool) (e : FluxEnv)
    (up : List Nat) : Ev.realFclose ∉ (close_sync c a b e up).2.2 := by
  rcases close_sync_trace c a b e up with h | h <;> rw [h]
  · simp
  · rcases publish_trace_cases { c with reenter := false } e up with
      h2 | ⟨t, h2 | h2⟩ <;> rw [h2] <;> simp

theorem count_once {a : Ev} {pre post : List Ev} (h1 : a ∉ pre) (h2 : a ∉ post) :
    (pre ++ a :: post).count a = 1 := by
  rw [List.count_append, List.count_eq_zero.mpr h1, List.count_cons_self,
    List.count_eq_zero.mpr h2]

/-- Branch shape of the `open` hook after successful symbol resolution:
the real call happens once, last, and the preceding coordination trace
(possibly empty) is an `open_sync` trace. -/
theorem openHook_cases (e : OpenEnv) (oflag modeArg : Nat) (h : e.dlsymOk = true) :
    ∃ pre, openHook e oflag modeArg = (e.realRet, pre ++ [Ev.realOpen]) ∧
      (pre = [] ∨
        ∃ c, pre = (open_sync c e.consPrefixSet e.pathMatches e.flux e.upath).2.2) := by
  simp only [openHook]
  rw [if_neg (by simp [h])]
  by_cases h1 : (if oflag &&& O_CREAT ≠ 0 then modeArg else 0) ≠ O_RDONLY ∨
      e.isDir = true
  · rw [if_pos h1]; exact ⟨[], rfl, Or.inl rfl⟩
  · rw [if_neg h1]
    cases hc : e.ctx with
    | none => exact ⟨[], rfl, Or.inl rfl⟩
    | some c =>
      dsimp only
      by_cases h2 : (c.hValid && c.reenter) = true
      · rw [if_pos h2]; exact ⟨_, rfl, Or.inr ⟨c, rfl⟩⟩
      · rw [if_neg h2]; exact ⟨[], rfl, Or.inl rfl⟩

/-- Branch shape of the `fopen` hook after successful symbol
resolution. -/
theorem fopenHook_cases (e : FopenEnv) (h : e.dlsymOk = true) :
    ∃ pre, fopenHook e = (e.realRet, pre ++ [Ev.realFopen]) ∧
      (pre = [] ∨
        ∃ c, pre = (open_sync c e.consPrefixSet e.pathMatches e.flux e.upath).2.2) := by
  simp only [fopenHook]
  rw [if_neg (by simp [h])]
  by_cases h1 : e.modeStr ≠ [114] ∨ e.isDir = true
  · rw [if_pos h1]; exact ⟨[], rfl, Or.inl rfl⟩
  · rw [if_neg h1]
    cases hc : e.ctx with
    | none => exact ⟨[], rfl, Or.inl rfl⟩
    | some c =>
      dsimp only
      by_cases h2 : (c.hValid && c.reenter && !e.pathNull) = true
      · rw [if_pos h2]; exact ⟨_, rfl, Or.inr ⟨c, rfl⟩⟩
      · rw [if_neg h2]; exact ⟨[], rfl, Or.inl rfl⟩

/-- Branch shape of the `close` hook after successful symbol resolution:
`fsync` first, then the real `close`, then (possibly) a `close_sync`
trace; the returned value is the real call's. -/
theorem closeHook_cases (e : CloseEnv) (h : e.dlsymOk = true) :
    ∃ post, closeHook e = (e.realRet, [Ev.fsync, Ev.realClose] ++ post) ∧
      (post = [] ∨
        ∃ c, post = (close_sync c e.prodPrefixSet e.pathMatches e.flux e.upath).2.2) := by
  simp only [closeHook]
  rw [if_neg (by simp [h])]
  cases hc : e.ctx with
  | none => exact ⟨[], rfl, Or.inl rfl⟩
  | some c =>
    dsimp only
    by_cases h1 : (e.fdValid && c.hValid && c.reenter && !e.isDir && e.getPathOk) = true ∧
        e.wronly = 1
    · rw [if_pos h1]; exact ⟨_, rfl, Or.inr ⟨c, rfl⟩⟩
    · rw [if_neg h1]; exact ⟨[], rfl, Or.inl rfl⟩

/-- Branch shape of the `fclose` hook after successful symbol
resolution. -/
theorem fcloseHook_cases (e : CloseEnv) (h : e.dlsymOk = true) :
    ∃ post, fcloseHook e = (e.realRet, [Ev.fflush, Ev.fsync, Ev.realFclose] ++ post) ∧
      (post = [] ∨
        ∃ c, post = (close_sync c e.prodPrefixSet e.pathMatches e.flux e.upath).2.2) := by
  simp only [fcloseHook]
  rw [if_neg (by simp [h])]
  cases hc : e.ctx with
  | none => exact ⟨[], rfl, Or.inl rfl⟩
  | some c =>
    dsimp only
    by_cases h1 : (e.fdValid && c.hValid && c.reenter && !e.isDir && e.getPathOk) = true ∧
        e.wronly = 1
    · rw [if_pos h1]; exact ⟨_, rfl, Or.inr ⟨c, rfl⟩⟩
    · rw [if_neg h1]; exact ⟨[], rfl, Or.inl rfl⟩

/-! ## Claim C2 -/

/-- C2: for each interposed entry point, whenever the next-symbol
resolution succeeds, the real function is invoked exactly once on every
code path (it appears exactly once in the trace) and the value returned
is exactly the real function's return value — in particular coordination
failures (arbitrary `FluxEnv` oracles) change neither. -/
theorem c2_real_called_once (eo : OpenEnv) (oflag modeArg : Nat) (ef : FopenEnv)
    (ec ecf : CloseEnv) :
    (eo.dlsymOk = true →
      (openHook eo oflag modeArg).1 = eo.realRet ∧
      (openHook eo oflag modeArg).2.count Ev.realOpen = 1) ∧
    (ef.dlsymOk = true →
      (fopenHook ef).1 = ef.realRet ∧
      (fopenHook ef).2.count Ev.realFopen = 1) ∧
    (ec.dlsymOk = true →
      (closeHook ec).1 = ec.realRet ∧
      (closeHook ec).2.count Ev.realClose = 1) ∧
    (ecf.dlsymOk = true →
      (fcloseHook ecf).1 = ecf.realRet ∧
      (fcloseHook ecf).2.count Ev.realFclose = 1) := by
  refine ⟨fun h => ?_, fun h => ?_, fun h => ?_, fun h => ?_⟩
  · obtain ⟨pre, heq, hpre⟩ := openHook_cases eo oflag modeArg h
    rw [heq]
    refine ⟨rfl, count_once ?_ (by simp)⟩
    rcases hpre with rfl | ⟨c, rfl⟩
    · simp
    · exact realOpen_not_mem_open_sync _ _ _ _ _
  · obtain ⟨pre, heq, hpre⟩ := fopenHook_cases ef h
    rw [heq]
    refine ⟨rfl, count_once ?_ (by simp)⟩
    rcases hpre with rfl | ⟨c, rfl⟩
    · simp
    · exact realFopen_not_mem_open_sync _ _ _ _ _
  · obtain ⟨post, heq, hpost⟩ := closeHook_cases ec h
    rw [heq]
    refine ⟨rfl, ?_⟩
    have hmem : Ev.realClose ∉ post := by
      rcases hpost with rfl | ⟨c, rfl⟩
      · simp
      · exact realClose_not_mem_close_sync _ _ _ _ _
    have : ([Ev.fsync, Ev.realClose] ++ post : List Ev) =
        [Ev.fsync] ++ Ev.realClose :: post := rfl
    rw [this]
    exact count_once (by simp) hmem
  · obtain ⟨post, heq, hpost⟩ := fcloseHook_cases ecf h
    rw [heq]
    refine ⟨rfl, ?_⟩
    have hmem : Ev.realFclose ∉ post := by
      rcases hpost with rfl | ⟨c, rfl⟩
      · simp
      · exact realFclose_not_mem_close_sync _ _ _ _ _
    have : ([Ev.fflush, Ev.fsync, Ev.realFclose] ++ post : List Ev) =
        [Ev.fflush, Ev.fsync] ++ Ev.realFclose :: post := rfl
    rw [this]
    exact count_once (by simp) hmem

/-- Witness for C2 at concrete live environments (coordination actually
runs in each of the four hooks). -/
theorem c2_real_called_once_witness :
    ((openHook liveOpenEnv 0 0).1 = 3 ∧
      (openHook liveOpenEnv 0 0).2.count Ev.realOpen = 1) ∧
    ((fopenHook liveFopenEnv).1 = 5 ∧
      (fopenHook liveFopenEnv).2.count Ev.realFopen = 1) ∧
    ((closeHook liveCloseEnv).1 = 0 ∧
      (closeHook liveCloseEnv).2.count Ev.realClose = 1) ∧
    ((fcloseHook liveCloseEnv).1 = 0 ∧
      (fcloseHook liveCloseEnv).2.count Ev.realFclose = 1) := by
  have h := c2_real_called_once liveOpenEnv 0 0 liveFopenEnv liveCloseEnv liveCloseEnv
  exact ⟨h.1 rfl, h.2.1 rfl, h.2.2.1 rfl, h.2.2.2 rfl⟩

/-! ## Claim C4 -/

/-- C4: in every `close` (resp. `fclose`) invocation, any entry into
`publish_via_flux` — and a fortiori the KVS commit of the ownership
record — happens after the `fsync` of the descriptor (and the `fflush`
for streams) and after the real close. -/
theorem c4_publish_after_durability (ec ecf : CloseEnv) :
    (precedes Ev.fsync Ev.publishCall (closeHook ec).2 ∧
      precedes Ev.realClose Ev.publishCall (closeHook ec).2 ∧
      precedes Ev.fsync Ev.commit (closeHook ec).2 ∧
      precedes Ev.realClose Ev.commit (closeHook ec).2) ∧
    (precedes Ev.fflush Ev.publishCall (fcloseHook ecf).2 ∧
      precedes Ev.fsync Ev.publishCall (fcloseHook ecf).2 ∧
      precedes Ev.realFclose Ev.publishCall (fcloseHook ecf).2 ∧
      precedes Ev.fflush Ev.commit (fcloseHook ecf).2 ∧
      precedes Ev.fsync Ev.commit (fcloseHook ecf).2 ∧
      precedes Ev.realFclose Ev.commit (fcloseHook ecf).2) := by
  constructor
  · by_cases h : ec.dlsymOk = true
    · obtain ⟨post, heq, _⟩ := closeHook_cases ec h
      rw [heq]
      refine ⟨?_, ?_, ?_, ?_⟩ <;> exact precedes_append (by simp) (by simp)
    · have heq : closeHook ec = (-1, []) := by
        unfold closeHook
        rw [if_pos (by simpa using h)]
      rw [heq]
      refine ⟨?_, ?_, ?_, ?_⟩ <;> exact precedes_of_not_mem (by simp)
  · by_cases h : ecf.dlsymOk = true
    · obtain ⟨post, heq, _⟩ := fcloseHook_cases ecf h
      rw [heq]
      refine ⟨?_, ?_, ?_, ?_, ?_, ?_⟩ <;> exact precedes_append (by simp) (by simp)
    · have heq : fcloseHook ecf = (-1, []) := by
        unfold fcloseHook
        rw [if_pos (by simpa using h)]
      rw [heq]
      refine ⟨?_, ?_, ?_, ?_, ?_, ?_⟩ <;> exact precedes_of_not_mem (by simp)

/-- Witness for C4: at the live producer close, the concrete trace is
`[fsync, realClose, publishCall, txnPack "c.a", commit]` and the theorem's
ordering obligations apply to it. -/
theorem c4_publish_after_durability_witness :
    Ev.realClose ∈ ([Ev.fsync, Ev.realClose] : List Ev) ∧
    Ev.fsync ∈ ([Ev.fsync, Ev.realClose, Ev.publishCall,
      Ev.txnPack [99, 46, 97]] : List Ev) := by
  have h := c4_publish_after_durability liveCloseEnv liveCloseEnv
  refine ⟨h.1.2.1 [Ev.fsync, Ev.realClose] [Ev.txnPack [99, 46, 97], Ev.commit]
    (by decide), h.1.2.2.1 [Ev.fsync, Ev.realClose, Ev.publishCall,
      Ev.txnPack [99, 46, 97]] [] (by decide)⟩

/-! ## Claim C5 -/

/-- C5: the `open` hook's applicability test compares the sentinel `mode`
(which is `0` whenever `O_CREAT` is absent) with `O_RDONLY`, not the
access-mode bits of `oflag`; so a write-only `open` without `O_CREAT`
still runs the blocking subscribe coordination and the claimed "flags are
read-only" gating does not hold on the code.  The hook still returns the
real call's value. -/
theorem c5_open_gate_ignores_access_mode :
    O_WRONLY &&& O_ACCMODE ≠ O_RDONLY ∧
    O_WRONLY &&& O_CREAT = 0 ∧
    Ev.subscribeCall ∈ (openHook liveOpenEnv O_WRONLY 0).2 ∧
    Ev.kvsLookup ((genPathKeyBuf [97] PATH_MAX 1 16).2) ∈
      (openHook liveOpenEnv O_WRONLY 0).2 ∧
    (openHook liveOpenEnv O_WRONLY 0).1 = liveOpenEnv.realRet := by decide

/-! ## Claim C3 -/

/-- C3: whenever the wait-create lookup yields an owner rank, the
subscriber returns ok without fetching if `shared_storage` is set or the
owner is the local rank; a fetch RPC is issued only when storage is not
shared and the owner differs, and only after the owner rank has been
observed from the lookup. -/
theorem c3_fetch_gating (c : Ctx) (e : FluxEnv) (up : List Nat) :
    (c.hValid = true → e.lookupOk = true → e.unpackOk = true →
      (c.shared_storage = true ∨ e.ownerRank = c.rank) →
      (subscribe_via_flux c e up).1 = 0 ∧
        ∀ r, Ev.fetch r ∉ (subscribe_via_flux c e up).2.2) ∧
    (∀ r, Ev.fetch r ∈ (subscribe_via_flux c e up).2.2 →
      c.shared_storage = false ∧ r = e.ownerRank ∧ e.ownerRank ≠ c.rank ∧
        c.hValid = true ∧ e.lookupOk = true ∧ e.unpackOk = true) ∧
    (∀ r, precedes (Ev.gotOwner e.ownerRank) (Ev.fetch r)
      (subscribe_via_flux c e up).2.2) := by
  refine ⟨fun hH hL hU hS => ?_, fun r hr => ?_, fun r => ?_⟩
  · constructor
    · simp [subscribe_via_flux, hH, hL, hU, hS]
    · intro r
      simp [subscribe_via_flux, hH, hL, hU, hS]
  · by_cases hH : c.hValid = false
    · simp [subscribe_via_flux, hH] at hr
    by_cases hL : e.lookupOk = false
    · simp [subscribe_via_flux, hH, hL] at hr
    by_cases hU : e.unpackOk = false
    · simp [subscribe_via_flux, hH, hL, hU] at hr
    by_cases hS : c.shared_storage = true ∨ e.ownerRank = c.rank
    · simp [subscribe_via_flux, hH, hL, hU, hS] at hr
    · have hr' : r = e.ownerRank := by
        simpa [subscribe_via_flux, hH, hL, hU, hS] using hr
      push_neg at hS
      refine ⟨by simpa using hS.1, hr', hS.2, by simpa using hH, by simpa using hL,
        by simpa using hU⟩
  · by_cases hH : c.hValid = false
    · exact precedes_of_not_mem (by simp [subscribe_via_flux, hH])
    by_cases hL : e.lookupOk = false
    · exact precedes_of_not_mem (by simp [subscribe_via_flux, hH, hL])
    by_cases hU : e.unpackOk = false
    · exact precedes_of_not_mem (by simp [subscribe_via_flux, hH, hL, hU])
    by_cases hS : c.shared_storage = true ∨ e.ownerRank = c.rank
    · exact precedes_of_not_mem (by simp [subscribe_via_flux, hH, hL, hU, hS])
    · have htr : (subscribe_via_flux c e up).2.2 =
          [Ev.subscribeCall,
            Ev.kvsLookup ((genPathKeyBuf up PATH_MAX c.key_depth c.key_bins).2),
            Ev.gotOwner e.ownerRank] ++ [Ev.fetch e.ownerRank] := by
        simp [subscribe_via_flux, hH, hL, hU, hS]
      rw [htr]
      exact precedes_append (by simp) (by simp)

/-- Witness for C3: concrete shared-storage short-circuit (lookup yields
owner 1 ≠ rank 0, no fetch in the trace, result ok), via the theorem. -/
theorem c3_fetch_gating_witness :
    (subscribe_via_flux { liveCtx with shared_storage := true }
      { fluxAllOk with ownerRank := 1 } [97]).1 = 0 ∧
    Ev.fetch 1 ∉ (subscribe_via_flux { liveCtx with shared_storage := true }
      { fluxAllOk with ownerRank := 1 } [97]).2.2 := by
  have h := c3_fetch_gating { liveCtx with shared_storage := true }
    { fluxAllOk with ownerRank := 1 } [97]
  have h1 := h.1 rfl rfl rfl (Or.inl rfl)
  exact ⟨h1.1, h1.2 1⟩

/-! ## Claim C10 -/

/-- C10: `subscribe_via_flux` and `publish_via_flux` discard the
`gen_path_key` return value: whenever key generation fails (result `-1`),
both still proceed against the KVS — the wait-create lookup (resp. the
transaction pack feeding the commit) is issued with whatever bytes remain
in the topic buffer. -/
theorem c10_gen_key_failure_ignored (c : Ctx) (e : FluxEnv) (up : List Nat)
    (hfail : (genPathKeyBuf up PATH_MAX c.key_depth c.key_bins).1 = -1)
    (hH : c.hValid = true) :
    Ev.kvsLookup ((genPathKeyBuf up PATH_MAX c.key_depth c.key_bins).2) ∈
      (subscribe_via_flux c e up).2.2 ∧
    (e.txnCreateOk = true →
      Ev.txnPack ((genPathKeyBuf up PATH_MAX c.key_depth c.key_bins).2) ∈
        (publish_via_flux c e up).2.2) := by
  have hH' : ¬ c.hValid = false := by simp [hH]
  constructor
  · simp only [subscribe_via_flux]
    rw [if_neg hH']
    repeat' split
    all_goals simp
  · intro hT
    simp only [publish_via_flux]
    rw [if_neg hH', if_neg (by simp [hT])]
    repeat' split
    all_goals simp

/-! ## The `gen_path_key` loop, characterized -/

theorem piecesFromSeed_eq (str : List Nat) (width : Nat) :
    ∀ dRem d, piecesFromSeed str width d (seedBefore d) dRem = piecesFrom str width d dRem := by
  intro dRem
  induction dRem with
  | zero => intro d; rfl
  | succ k ih =>
    intro d
    simp only [piecesFromSeed, piecesFrom]
    exact congrArg₂ (· ++ ·) rfl (ih (d + 1))

/-- When every level's `"%x."` still fits, the loop of `gen_path_key`
succeeds, advancing the offset by the total formatted length and
appending exactly the formatted pieces. -/
theorem genLoop_success (str : List Nat) (len width : Nat) :
    ∀ dRem d s cx content,
      (∀ j, j < dRem → cx + (piecesFromSeed str width d s (j + 1)).length < len) →
      genLoop str len width dRem d s cx content =
        (true, cx + (piecesFromSeed str width d s dRem).length,
          content ++ piecesFromSeed str width d s dRem) := by
  intro dRem
  induction dRem with
  | zero => intro d s cx content _h; simp [genLoop, piecesFromSeed]
  | succ k ih =>
    intro d s cx content h
    have h0 : cx + (binPiece str width (seedStep s d)).length < len := by
      have h' := h 0 k.succ_pos
      simpa [piecesFromSeed] using h'
    have htake : (binPiece str width (seedStep s d)).take (len - cx - 1) =
        binPiece str width (seedStep s d) :=
      List.take_of_length_le (by omega)
    have hnext : ∀ j, j < k →
        (cx + (binPiece str width (seedStep s d)).length) +
          (piecesFromSeed str width (d + 1) (seedStep s d) (j + 1)).length < len := by
      intro j hj
      have h' := h (j + 1) (by omega)
      simp only [piecesFromSeed, List.length_append] at h' ⊢
      omega
    simp only [genLoop]
    rw [if_neg (by omega), htake, ih (d + 1) (seedStep s d) _ _ hnext]
    simp only [piecesFromSeed, List.length_append, List.append_assoc, Prod.mk.injEq]
    refine ⟨trivial, by omega, trivial⟩

/-- When the `"%x."` of some level would overflow, the loop of
`gen_path_key` reports failure. -/
theorem genLoop_overflow (str : List Nat) (len width : Nat) :
    ∀ dRem d s cx content,
      (∃ j, j < dRem ∧ len ≤ cx + (piecesFromSeed str width d s (j + 1)).length) →
      (genLoop str len width dRem d s cx content).1 = false := by
  intro dRem
  induction dRem with
  | zero => rintro d s cx content ⟨j, hj, _⟩; omega
  | succ k ih =>
    rintro d s cx content ⟨j, hj, hle⟩
    by_cases h0 : len ≤ cx + (binPiece str width (seedStep s d)).length
    · simp only [genLoop]
      rw [if_pos h0]
    · simp only [genLoop]
      rw [if_neg h0]
      apply ih (d + 1) (seedStep s d)
      cases j with
      | zero =>
        exfalso
        simp only [piecesFromSeed, List.append_nil, List.length_append,
          List.length_nil] at hle
        omega
      | succ j' =>
        refine ⟨j', by omega, ?_⟩
        simp only [piecesFromSeed, List.length_append] at hle ⊢
        omega

/-- On fitting inputs `gen_path_key` succeeds and writes exactly the
closed-form key. -/
theorem genPathKeyBuf_success (str : List Nat) (len depth width : Nat)
    (hlen : len ≠ 0)
    (hall : ∀ j, j < depth → (piecesFrom str width 0 (j + 1)).length < len)
    (hfit : (piecesFrom str width 0 depth).length + str.length < len) :
    genPathKeyBuf str len depth width = (0, dyadKey str depth width) := by
  have hb : ∀ k, piecesFromSeed str width 0 57 k = piecesFrom str width 0 k :=
    fun k => piecesFromSeed_eq str width k 0
  have hloop := genLoop_success str len width depth 0 57 0 []
    (by intro j hj; rw [hb]; simpa using hall j hj)
  unfold genPathKeyBuf
  rw [if_neg hlen, hloop]
  dsimp only
  rw [hb]
  rw [if_neg (by omega)]
  rw [List.take_of_length_le (by omega)]
  simp [dyadKey]

/-- When the `"%x."` of some level overflows, `gen_path_key` fails. -/
theorem genPathKeyBuf_fail_loop (str : List Nat) (len depth width : Nat)
    (hlen : len ≠ 0)
    (hj : ∃ j, j < depth ∧ len ≤ (piecesFrom str width 0 (j + 1)).length) :
    (genPathKeyBuf str len depth width).1 = -1 := by
  have hb : ∀ k, piecesFromSeed str width 0 57 k = piecesFrom str width 0 k :=
    fun k => piecesFromSeed_eq str width k 0
  have hloop := genLoop_overflow str len width depth 0 57 0 []
    (by
      rcases hj with ⟨j, h1, h2⟩
      exact ⟨j, h1, by rw [hb]; simpa using h2⟩)
  rcases hgl : genLoop str len width depth 0 57 0 [] with ⟨ok, cx, content⟩
  rw [hgl] at hloop
  simp only at hloop
  subst hloop
  unfold genPathKeyBuf
  rw [if_neg hlen, hgl]

/-- When the loop fits but the literal path suffix overflows,
`gen_path_key` fails. -/
theorem genPathKeyBuf_fail_tail (str : List Nat) (len depth width : Nat)
    (hlen : len ≠ 0)
    (hall : ∀ j, j < depth → (piecesFrom str width 0 (j + 1)).length < len)
    (hge : len ≤ (piecesFrom str width 0 depth).length + str.length) :
    (genPathKeyBuf str len depth width).1 = -1 := by
  have hb : ∀ k, piecesFromSeed str width 0 57 k = piecesFrom str width 0 k :=
    fun k => piecesFromSeed_eq str width k 0
  have hloop := genLoop_success str len width depth 0 57 0 []
    (by intro j hj; rw [hb]; simpa using hall j hj)
  unfold genPathKeyBuf
  rw [if_neg hlen, hloop]
  dsimp only
  rw [hb]
  rw [if_pos (by omega)]

/-- Exact success condition of `gen_path_key` on a non-null buffer. -/
theorem genPathKeyBuf_ok_iff (str : List Nat) (len depth width : Nat) :
    (genPathKeyBuf str len depth width).1 = 0 ↔
      (len ≠ 0 ∧ (∀ j, j < depth → (piecesFrom str width 0 (j + 1)).length < len) ∧
        (piecesFrom str width 0 depth).length + str.length < len) := by
  constructor
  · intro h
    by_cases hlen : len = 0
    · rw [genPathKeyBuf, if_pos hlen] at h
      simp at h
    by_cases hall : ∀ j, j < depth → (piecesFrom str width 0 (j + 1)).length < len
    · by_cases hfit : (piecesFrom str width 0 depth).length + str.length < len
      · exact ⟨hlen, hall, hfit⟩
      · have hm := genPathKeyBuf_fail_tail str len depth width hlen hall (by omega)
        rw [h] at hm
        simp at hm
    · push_neg at hall
      obtain ⟨j, hj1, hj2⟩ := hall
      have hm := genPathKeyBuf_fail_loop str len depth width hlen ⟨j, hj1, hj2⟩
      rw [h] at hm
      simp at hm
  · rintro ⟨h1, h2, h3⟩
    rw [genPathKeyBuf_success str len depth width h1 h2 h3]

/-- `gen_path_key`'s result is always `0` or `-1`. -/
theorem genPathKeyBuf_rc (str : List Nat) (len depth width : Nat) :
    (genPathKeyBuf str len depth width).1 = 0 ∨
      (genPathKeyBuf str len depth width).1 = -1 := by
  by_cases hlen : len = 0
  · right
    rw [genPathKeyBuf, if_pos hlen]
  by_cases hall : ∀ j, j < depth → (piecesFrom str width 0 (j + 1)).length < len
  · by_cases hfit : (piecesFrom str width 0 depth).length + str.length < len
    · left
      rw [genPathKeyBuf_success str len depth width hlen hall hfit]
    · right
      exact genPathKeyBuf_fail_tail str len depth width hlen hall (by omega)
  · right
    push_neg at hall
    obtain ⟨j, hj1, hj2⟩ := hall
    exact genPathKeyBuf_fail_loop str len depth width hlen ⟨j, hj1, hj2⟩

/-- Witness for C10: a user path of 4100 bytes overflows the `PATH_MAX`
topic buffer under `key_depth = 0` (settable via `DYAD_KEY_DEPTH=0`), and
both operations still touch the KVS with the truncated topic. -/
theorem c10_gen_key_failure_ignored_witness :
    Ev.kvsLookup ((genPathKeyBuf (List.replicate 4100 97) PATH_MAX
        depthZeroCtx.key_depth depthZeroCtx.key_bins).2) ∈
      (subscribe_via_flux depthZeroCtx fluxAllOk (List.replicate 4100 97)).2.2 ∧
    Ev.txnPack ((genPathKeyBuf (List.replicate 4100 97) PATH_MAX
        depthZeroCtx.key_depth depthZeroCtx.key_bins).2) ∈
      (publish_via_flux depthZeroCtx fluxAllOk (List.replicate 4100 97)).2.2 := by
  have hfail : (genPathKeyBuf (List.replicate 4100 97) PATH_MAX
      depthZeroCtx.key_depth depthZeroCtx.key_bins).1 = -1 := by
    refine genPathKeyBuf_fail_tail (List.replicate 4100 97) 4096 0 1024
      (by norm_num) (fun j hj => absurd hj (by omega)) ?_
    simp only [piecesFrom, List.length_nil, List.length_replicate]
    norm_num
  have h := c10_gen_key_failure_ignored depthZeroCtx fluxAllOk
    (List.replicate 4100 97) hfail rfl
  exact ⟨h.1, h.2 rfl⟩

/-! ## Claim C7 -/

/-- C7: `gen_path_key` either returns `0` having written a nul-terminated
key of length at most `out_cap - 1`, or returns `-1`; and it returns `-1`
exactly when the buffer is null, the capacity is `0`, or some `snprintf`
of a bin or of the path suffix would overflow the buffer. -/
theorem c7_gen_path_key_result (outNull : Bool) (str : List Nat)
    (len depth width : Nat) :
    ((gen_path_key outNull str len depth width).1 = 0 ∨
      (gen_path_key outNull str len depth width).1 = -1) ∧
    ((gen_path_key outNull str len depth width).1 = 0 →
      (gen_path_key outNull str len depth width).2.length ≤ len - 1) ∧
    ((gen_path_key outNull str len depth width).1 = -1 ↔
      (outNull = true ∨ len = 0 ∨ overflowAt str len depth width)) := by
  cases outNull with
  | true =>
    refine ⟨Or.inr rfl, fun h => ?_, ?_⟩
    · simp [gen_path_key] at h
    · simp [gen_path_key]
  | false =>
    have hgen : gen_path_key false str len depth width = genPathKeyBuf str len depth width := by
      simp [gen_path_key]
    rw [hgen]
    by_cases hlen : len = 0
    · refine ⟨Or.inr ?_, fun h => ?_, ?_⟩
      · rw [genPathKeyBuf, if_pos hlen]
      · rw [genPathKeyBuf, if_pos hlen] at h
        simp at h
      · constructor
        · intro _
          exact Or.inr (Or.inl hlen)
        · intro _
          rw [genPathKeyBuf, if_pos hlen]
    by_cases hall : ∀ j, j < depth → (piecesFrom str width 0 (j + 1)).length < len
    · by_cases hfit : (piecesFrom str width 0 depth).length + str.length < len
      · have hs := genPathKeyBuf_success str len depth width hlen hall hfit
        rw [hs]
        refine ⟨Or.inl rfl, fun _ => ?_, ?_⟩
        · show (dyadKey str depth width).length ≤ len - 1
          have : (dyadKey str depth width).length =
              (piecesFrom str width 0 depth).length + str.length := by
            simp [dyadKey]
          omega
        · simp only [overflowAt]
          constructor
          · intro hb
            simp at hb
          · rintro (hc | hc | hc)
            · simp at hc
            · exact absurd hc hlen
            · rcases hc with ⟨j, hj1, hj2⟩ | hc
              · exact absurd hj2 (by have := hall j hj1; omega)
              · omega
      · have hm := genPathKeyBuf_fail_tail str len depth width hlen hall (by omega)
        refine ⟨Or.inr hm, fun h => ?_, ?_⟩
        · rw [h] at hm
          simp at hm
        · rw [hm]
          simp only [overflowAt]
          constructor
          · intro _
            exact Or.inr (Or.inr (Or.inr (by omega)))
          · intro _
            trivial
    · push_neg at hall
      obtain ⟨j, hj1, hj2⟩ := hall
      have hm := genPathKeyBuf_fail_loop str len depth width hlen ⟨j, hj1, hj2⟩
      refine ⟨Or.inr hm, fun h => ?_, ?_⟩
      · rw [h] at hm
        simp at hm
      · rw [hm]
        simp only [overflowAt]
        constructor
        · intro _
          exact Or.inr (Or.inr (Or.inl ⟨j, hj1, hj2⟩))
        · intro _
          trivial

/-- Witness for C7: the success bound at `("a", 128, 2, 1024)` and the
exact failure characterization at capacity `4`. -/
theorem c7_gen_path_key_result_witness :
    (gen_path_key false [97] 128 2 1024).2.length ≤ 128 - 1 ∧
    ((gen_path_key false [97] 4 2 1024).1 = -1 ↔
      (false = true ∨ (4 : Nat) = 0 ∨ overflowAt [97] 4 2 1024)) := by
  have h1 := c7_gen_path_key_result false [97] 128 2 1024
  have h2 := c7_gen_path_key_result false [97] 4 2 1024
  exact ⟨h1.2.1 (by decide), h2.2.2⟩

/-! ## Claim C1 -/

/-- C1 counterexample: at path `"a"`, depth `2`, bins `1024`, capacity
`128`, `gen_path_key` succeeds and writes `"3dc.2dc.a"` — the second bin
is hashed with the accumulated seed `57 + seeds[0] + seeds[1]`, not the
claim's independent `57 + seeds[1]`, whose key would be `"3dc.294.a"`. -/
theorem c1_seed_schedule_counterexample :
    (gen_path_key false [97] 128 2 1024).1 = 0 ∧
    (gen_path_key false [97] 128 2 1024).2 ≠ dyadKeySpec [97] 2 1024 := by decide

/-- C1 (amended): on success, `gen_path_key (p, out, out_cap, d, w)` writes
the key `hex(b_0). hex(b_1). … hex(b_{d-1}).` followed by the literal
path, where `b_i = (h_0 xor h_1 xor h_2 xor h_3) mod w` of the
MurmurHash3 x64 128 hash of `p`, hashed at level `i` with the accumulated
seed `cumSeed i` (`cumSeed 0 = 57 + seeds[0]`,
`cumSeed (i+1) = cumSeed i + seeds[(i+1) mod 10] (mod 2^32)`), the seed
table being `{104677, ..., 104729}`. -/
theorem c1_gen_path_key_key_shape (str : List Nat) (len depth width : Nat)
    (hd : 1 ≤ depth) (hw : 1 ≤ width)
    (hok : (gen_path_key false str len depth width).1 = 0) :
    (gen_path_key false str len depth width).2 = dyadKey str depth width := by
  have hgen : gen_path_key false str len depth width = genPathKeyBuf str len depth width := by
    simp [gen_path_key]
  rw [hgen] at hok ⊢
  obtain ⟨h1, h2, h3⟩ := (genPathKeyBuf_ok_iff str len depth width).mp hok
  rw [genPathKeyBuf_success str len depth width h1 h2 h3]

/-- Witness for C1 (amended) at `("a", 128, 2, 1024)`. -/
theorem c1_gen_path_key_key_shape_witness :
    (gen_path_key false [97] 128 2 1024).2 = dyadKey [97] 2 1024 := by
  exact c1_gen_path_key_key_shape [97] 128 2 1024 (by decide) (by decide) (by decide)

end Dyad
